import Mathlib

/-!
Shallow embedding of `src/kafka_producer.go` (package siesta): the topic
metadata cache (`topicMetadataCache.Get` / `Refresh`), the serializers
(`ByteSerializer`, `StringSerializer`), the send pipeline
(`KafkaProducer.Send` / `send`) and the producer lifecycle (`Close`).

Modelling conventions:
- Go `time.Time` instants are `Nat` ticks; `t1.Add(d).Before(t2)` is
  `t1 + d < t2` (Go `Before` is a strict comparison).
- The Go map `map[string]*topicMetadataCacheEntry` is a function
  `String → Option TopicMetadataCacheEntry`; `nil` lookups are `none`,
  map assignment is pointwise update.
- Go `error` values are `Option GoError` (`nil` = `none`); a Go
  `(value, error)` return with exclusive success/failure is `Except`.
- The `Connector.GetTopicMetadata` collaborator is a parameter: a pure
  function from the topic list to a response or an error.  A response is
  the list of per-topic metadata; the Go loop that collects the
  `PartitionID` field of each `PartitionsMetadata` element is represented
  by carrying the list of partition IDs directly.
- `time.Now()` inside a call is the `now : Nat` argument threaded in.
- Instrumentation fields (`refreshCalls`, `trace`) count collaborator
  invocations; they add no behaviour.
-/

namespace Siesta

/-- A Go `error` value: only its presence and identity matter. -/
structure GoError where
  msg : String
deriving DecidableEq, Repr

/-- `topicMetadataCacheEntry`: cached partition list plus fetch time. -/
structure TopicMetadataCacheEntry where
  partitions : List Int
  timestamp : Nat
deriving DecidableEq, Repr

/-- The cache's `cache map[string]*topicMetadataCacheEntry` field. -/
abbrev Cache : Type := String → Option TopicMetadataCacheEntry

/-- A `TopicMetadataResponse` restricted to what `Refresh` reads from it:
for each returned topic, the list of partition IDs collected from its
`PartitionsMetadata`. -/
abbrev TopicMetadataResponse : Type := List (String × List Int)

/-- The `Connector.GetTopicMetadata` collaborator as a pure function. -/
abbrev Connector : Type := List String → Except GoError TopicMetadataResponse

/-- `newTopicMetadataCacheEntry`: fresh entry with `timestamp = time.Now()`. -/
def newTopicMetadataCacheEntry (partitions : List Int) (now : Nat) :
    TopicMetadataCacheEntry :=
  { partitions := partitions, timestamp := now }

/-- Go map assignment `tmc.cache[topic] = entry`. -/
def cacheInsert (c : Cache) (topic : String) (e : TopicMetadataCacheEntry) :
    Cache :=
  fun t => if t = topic then some e else c t

/-- Result of `topicMetadataCache.Refresh`: the updated map and the
returned `error`. -/
structure RefreshResult where
  cache : Cache
  err : Option GoError

/-- `topicMetadataCache.Refresh(topics)`: one `GetTopicMetadata` call; on
error the map is untouched and the error returned; on success every topic
of the response gets a brand-new entry (partition IDs from the response,
`timestamp = time.Now()`), in response order. -/
def tmcRefresh (conn : Connector) (now : Nat) (cache : Cache)
    (topics : List String) : RefreshResult :=
  match conn topics with
  | .error e => { cache := cache, err := some e }
  | .ok resp =>
      { cache := resp.foldl
          (fun c tm => cacheInsert c tm.1 (newTopicMetadataCacheEntry tm.2 now))
          cache,
        err := none }

/-- The error built by `Get`'s final
`fmt.Errorf("Could not get topic metadata for topic %s", topic)`. -/
def unknownTopicError (topic : String) : GoError :=
  { msg := "Could not get topic metadata for topic " ++ topic }

/-- Result of `topicMetadataCache.Get`: updated map, the Go
`([]int32, error)` pair as an `Except`, and the number of `Refresh`
calls made (instrumentation; each `Refresh` is exactly one Connector
call). -/
structure GetResult where
  cache : Cache
  result : Except GoError (List Int)
  refreshCalls : Nat

/-- Second half of `topicMetadataCache.Get`, from the re-read
`cache = tmc.cache[topic]` after the miss branch: staleness check
(`cache.timestamp.Add(tmc.ttl).Before(time.Now())`, i.e. strict
`timestamp + ttl < now`), optional refresh, final read, fall-through
error.  `calls` carries the instrumentation count so far. -/
def tmcGetTail (conn : Connector) (ttl now : Nat) (cache : Cache)
    (topic : String) (calls : Nat) : GetResult :=
  match cache topic with
  | some entry =>
      if entry.timestamp + ttl < now then
        let r := tmcRefresh conn now cache [topic]
        match r.err with
        | some e =>
            { cache := r.cache, result := .error e, refreshCalls := calls + 1 }
        | none =>
            match r.cache topic with
            | some entry2 =>
                { cache := r.cache, result := .ok entry2.partitions,
                  refreshCalls := calls + 1 }
            | none =>
                { cache := r.cache, result := .error (unknownTopicError topic),
                  refreshCalls := calls + 1 }
      else
        { cache := cache, result := .ok entry.partitions, refreshCalls := calls }
  | none =>
      { cache := cache, result := .error (unknownTopicError topic),
        refreshCalls := calls }

/-- `topicMetadataCache.Get(topic)`: miss triggers a synchronous
`Refresh([topic])` (its error is returned as-is), then the tail of the
function runs on the (possibly refreshed) map. -/
def tmcGet (conn : Connector) (ttl now : Nat) (cache : Cache)
    (topic : String) : GetResult :=
  match cache topic with
  | none =>
      let r := tmcRefresh conn now cache [topic]
      match r.err with
      | some e => { cache := r.cache, result := .error e, refreshCalls := 1 }
      | none => tmcGetTail conn ttl now r.cache topic 1
  | some _ => tmcGetTail conn ttl now cache topic 0

/-- A Go `interface{}` value as the serializers inspect it: `nil`, a
`string`, a `[]byte`, or a value of any other runtime type. -/
inductive GoValue where
  | nil
  | str (s : String)
  | bytes (b : List Nat)
  | other (tag : Nat)
deriving DecidableEq, Repr

/-- A Go `[]byte` result: `none` is the nil slice. -/
abbrev GoBytes : Type := Option (List Nat)

/-- `type Serializer func(interface{}) ([]byte, error)`. -/
abbrev Serializer : Type := GoValue → Except GoError GoBytes

/-- `ByteSerializer`: nil maps to `(nil, nil)`; a `[]byte` value is
returned as-is; anything else is an error. -/
def ByteSerializer : Serializer := fun value =>
  match value with
  | .nil => .ok none
  | .bytes b => .ok (some b)
  | _ => .error { msg := "cannot serialize value" }

/-- `StringSerializer`: only a value of runtime type `string` succeeds
(its bytes are returned); everything else, nil included, is an error. -/
def StringSerializer : Serializer := fun value =>
  match value with
  | .str s => .ok (some (s.data.map Char.toNat))
  | _ => .error { msg := "cannot serialize value to string" }

/-- `ProducerRecord` (its `metadataChan` field is modelled outside the
record, as the write list of the pipeline). -/
structure ProducerRecord where
  topic : String
  key : GoValue
  value : GoValue
  partition : Int := 0
  encodedKey : GoBytes := none
  encodedValue : GoBytes := none
deriving DecidableEq, Repr

/-- `RecordMetadata`; `new(RecordMetadata)` is the default value (all
zero fields, nil error). -/
structure RecordMetadata where
  offset : Int := 0
  topic : String := ""
  partition : Int := 0
  error : Option GoError := none
deriving DecidableEq, Repr

/-- The `Partitioner.Partition(record, partitions)` collaborator. -/
abbrev Partitioner : Type := ProducerRecord → List Int → Except GoError Int

/-- Instrumentation: which collaborators `KafkaProducer.send` invoked,
in order. -/
inductive SendEvent where
  | keySer
  | valSer
  | cacheGet
  | partitionCall
  | enqueue
deriving DecidableEq, Repr

/-- Outcome of one `KafkaProducer.send` call: everything written to the
record's metadata channel, everything pushed onto
`kp.accumulator.addChan`, the metadata cache afterwards, and the
collaborator trace. -/
structure SendResult where
  chanWrites : List RecordMetadata
  enqueued : List ProducerRecord
  cache : Cache
  trace : List SendEvent

/-- `KafkaProducer.send`: serialize key, serialize value, resolve
partitions through the metadata cache, pick a partition, then hand the
record to the accumulator.  Each failing step writes one
`RecordMetadata` whose only set field is `Error` and returns; only the
final step enqueues. -/
def kpSend (keySer valSer : Serializer) (part : Partitioner)
    (conn : Connector) (ttl now : Nat) (cache : Cache)
    (record : ProducerRecord) : SendResult :=
  match keySer record.key with
  | .error e =>
      { chanWrites := [{ error := some e }], enqueued := [], cache := cache,
        trace := [.keySer] }
  | .ok serializedKey =>
      match valSer record.value with
      | .error e =>
          { chanWrites := [{ error := some e }], enqueued := [], cache := cache,
            trace := [.keySer, .valSer] }
      | .ok serializedValue =>
          let record1 := { record with
            encodedKey := serializedKey, encodedValue := serializedValue }
          let g := tmcGet conn ttl now cache record.topic
          match g.result with
          | .error e =>
              { chanWrites := [{ error := some e }], enqueued := [],
                cache := g.cache, trace := [.keySer, .valSer, .cacheGet] }
          | .ok partitions =>
              match part record1 partitions with
              | .error e =>
                  { chanWrites := [{ error := some e }], enqueued := [],
                    cache := g.cache,
                    trace := [.keySer, .valSer, .cacheGet, .partitionCall] }
              | .ok p =>
                  { chanWrites := [], enqueued := [{ record1 with partition := p }],
                    cache := g.cache,
                    trace := [.keySer, .valSer, .cacheGet, .partitionCall,
                              .enqueue] }

/-- The channel `Send` returns: `make(chan *RecordMetadata, 1)` plus the
writes the pipeline itself performed on it. -/
structure MetadataChan where
  capacity : Nat
  buffered : List RecordMetadata

/-- `KafkaProducer.Send`: allocates the capacity-1 channel, runs `send`
on it, returns it. -/
def kpSendPublic (keySer valSer : Serializer) (part : Partitioner)
    (conn : Connector) (ttl now : Nat) (cache : Cache)
    (record : ProducerRecord) : MetadataChan × SendResult :=
  let r := kpSend keySer valSer part conn ttl now cache record
  ({ capacity := 1, buffered := r.chanWrites }, r)

/-- Producer lifecycle state: the metadata cache, the records handed to
the accumulator's ingress channel so far, and whether
`accumulator.close()` has been requested. -/
structure ProducerState where
  cache : Cache
  accumulatorQueue : List ProducerRecord
  accumulatorClosed : Bool

/-- `KafkaProducer.Close(timeout)`: calls `kp.accumulator.close()`;
the timeout argument is ignored and nothing else changes. -/
def kpClose (s : ProducerState) (_timeout : Int) : ProducerState :=
  { s with accumulatorClosed := true }

/-- One `Send` against the producer state: `send` runs exactly as in
`kpSend` — the Go code consults no shutdown flag — and whatever it
enqueues is appended to the accumulator's ingress queue. -/
def kpSendState (keySer valSer : Serializer) (part : Partitioner)
    (conn : Connector) (ttl now : Nat) (s : ProducerState)
    (record : ProducerRecord) : ProducerState × List RecordMetadata :=
  let r := kpSend keySer valSer part conn ttl now s.cache record
  ({ s with cache := r.cache,
            accumulatorQueue := s.accumulatorQueue ++ r.enqueued },
   r.chanWrites)

/-!
Interleaving model of concurrent `Refresh` calls.  `Refresh` in the Go
source is: `tmc.refreshLock.Lock()`, one `GetTopicMetadata` round trip,
the cache writes, `tmc.refreshLock.Unlock()` (deferred).  The struct has
exactly one `refreshLock sync.Mutex`, shared by all calls irrespective
of their `topics` argument, and the Connector call happens strictly
between Lock and Unlock.  A thread is therefore in one of three phases:
before the Lock, holding the lock with its fetch outstanding, done.
-/

/-- Program counter of one thread running `Refresh`. -/
inductive RefreshPC where
  | start
  | fetching
  | done
deriving DecidableEq, Repr

/-- Global state of `n` threads each running one `Refresh` call against
the one `refreshLock` of the cache. -/
structure RefreshSystem (n : Nat) where
  lockHolder : Option (Fin n)
  pcs : Fin n → RefreshPC

/-- All threads about to call `Refresh`, the mutex free. -/
def refreshInit (n : Nat) : RefreshSystem n :=
  { lockHolder := none, pcs := fun _ => .start }

/-- Interleaving steps: a thread acquires the free mutex and starts its
fetch; a thread holding the mutex finishes its fetch, performs its cache
writes and releases the mutex (the deferred Unlock). -/
inductive RefreshStep {n : Nat} :
    RefreshSystem n → RefreshSystem n → Prop where
  | acquire (s : RefreshSystem n) (i : Fin n)
      (hpc : s.pcs i = .start) (hlock : s.lockHolder = none) :
      RefreshStep s
        { lockHolder := some i, pcs := Function.update s.pcs i .fetching }
  | release (s : RefreshSystem n) (i : Fin n)
      (hpc : s.pcs i = .fetching) (hlock : s.lockHolder = some i) :
      RefreshStep s
        { lockHolder := none, pcs := Function.update s.pcs i .done }

/-- States reachable from the initial state by interleaving. -/
def RefreshReachable {n : Nat} (s : RefreshSystem n) : Prop :=
  Relation.ReflTransGen RefreshStep (refreshInit n) s

/-- Lock-discipline invariant: any thread whose fetch is outstanding is
the mutex holder. -/
def RefreshInv {n : Nat} (s : RefreshSystem n) : Prop :=
  ∀ i : Fin n, s.pcs i = .fetching → s.lockHolder = some i

/-!  Concrete collaborators and states used by witnesses and
counterexamples. -/

/-- A connector whose fetch always fails. -/
def connFail : Connector := fun _ => .error { msg := "fetch failed" }

/-- A connector that always reports topic `orders` with partitions
`0, 1, 2`. -/
def connOrders : Connector := fun _ => .ok [("orders", [0, 1, 2])]

/-- A connector whose successful response mentions only topic `other`. -/
def connOther : Connector := fun _ => .ok [("other", [7])]

/-- The empty cache map. -/
def emptyCache : Cache := fun _ => none

/-- A cache holding `orders ↦ (partitions 0 1 2, timestamp 0)`. -/
def cacheOrders : Cache := fun t =>
  if t = "orders" then some { partitions := [0, 1, 2], timestamp := 0 }
  else none

/-- A cache holding `t ↦ (partitions 0 1, timestamp 0)` (the seed of the
spec's replacement example). -/
def cacheSeed : Cache := fun t =>
  if t = "t" then some { partitions := [0, 1], timestamp := 0 } else none

/-- A partitioner that picks the first partition of the list and fails on
an empty list. -/
def partHead : Partitioner := fun _ parts =>
  match parts with
  | [] => .error { msg := "no partitions" }
  | p :: _ => .ok p

/-!  Helper lemmas about the refresh write loop and the tail of `Get`. -/

/-- The partition list the `Refresh` write loop leaves in the map for a
topic: the last response element for that topic wins (each iteration
overwrites the map slot), `none` when the response does not mention the
topic. -/
def lastPartitions : TopicMetadataResponse → String → Option (List Int)
  | [], _ => none
  | tm :: rest, t =>
      match lastPartitions rest t with
      | some ps => some ps
      | none => if tm.1 = t then some tm.2 else none

theorem refreshFold_lookup (resp : TopicMetadataResponse) (now : Nat)
    (c : Cache) (t : String) :
    resp.foldl
      (fun c tm => cacheInsert c tm.1 (newTopicMetadataCacheEntry tm.2 now))
      c t =
      match lastPartitions resp t with
      | some ps => some (newTopicMetadataCacheEntry ps now)
      | none => c t := by
  induction resp generalizing c with
  | nil => rfl
  | cons tm rest ih =>
      rw [List.foldl_cons, ih]
      cases hl : lastPartitions rest t with
      | some ps => simp [lastPartitions, hl]
      | none =>
          simp only [lastPartitions, hl, cacheInsert]
          by_cases ht : tm.1 = t
          · simp [ht]
          · simp only [if_neg ht, if_neg (fun h : t = tm.1 => ht h.symm)]

theorem lastPartitions_eq_none (resp : TopicMetadataResponse) (t : String)
    (h : ∀ tm ∈ resp, tm.1 ≠ t) : lastPartitions resp t = none := by
  induction resp with
  | nil => rfl
  | cons tm rest ih =>
      simp only [lastPartitions,
        ih (fun x hx => h x (List.mem_cons_of_mem _ hx))]
      simp [h tm (List.mem_cons_self _ _)]

theorem tmcRefresh_error (conn : Connector) (now : Nat) (cache : Cache)
    (topics : List String) (e : GoError) (h : conn topics = .error e) :
    tmcRefresh conn now cache topics = { cache := cache, err := some e } := by
  simp [tmcRefresh, h]

theorem tmcRefresh_ok_lookup (conn : Connector) (now : Nat) (cache : Cache)
    (topics : List String) (resp : TopicMetadataResponse) (t : String)
    (h : conn topics = .ok resp) :
    (tmcRefresh conn now cache topics).cache t =
      match lastPartitions resp t with
      | some ps => some (newTopicMetadataCacheEntry ps now)
      | none => cache t := by
  simp [tmcRefresh, h, refreshFold_lookup]

theorem tmcRefresh_ok_err (conn : Connector) (now : Nat) (cache : Cache)
    (topics : List String) (resp : TopicMetadataResponse)
    (h : conn topics = .ok resp) :
    (tmcRefresh conn now cache topics).err = none := by
  simp [tmcRefresh, h]

theorem tmcGetTail_noEntry (conn : Connector) (ttl now : Nat) (cache : Cache)
    (topic : String) (calls : Nat) (h : cache topic = none) :
    tmcGetTail conn ttl now cache topic calls =
      { cache := cache, result := .error (unknownTopicError topic),
        refreshCalls := calls } := by
  simp [tmcGetTail, h]

theorem tmcGetTail_fresh (conn : Connector) (ttl now : Nat) (cache : Cache)
    (topic : String) (calls : Nat) (entry : TopicMetadataCacheEntry)
    (h1 : cache topic = some entry) (h2 : ¬ entry.timestamp + ttl < now) :
    tmcGetTail conn ttl now cache topic calls =
      { cache := cache, result := .ok entry.partitions,
        refreshCalls := calls } := by
  simp [tmcGetTail, h1, h2]

theorem tmcGetTail_stale_calls (conn : Connector) (ttl now : Nat)
    (cache : Cache) (topic : String) (calls : Nat)
    (entry : TopicMetadataCacheEntry)
    (h1 : cache topic = some entry) (h2 : entry.timestamp + ttl < now) :
    (tmcGetTail conn ttl now cache topic calls).refreshCalls = calls + 1 := by
  simp only [tmcGetTail, h1, h2, if_pos]
  cases (tmcRefresh conn now cache [topic]).err with
  | some e => rfl
  | none =>
      cases (tmcRefresh conn now cache [topic]).cache topic with
      | some entry2 => rfl
      | none => rfl

theorem tmcGetTail_stale_error (conn : Connector) (ttl now : Nat)
    (cache : Cache) (topic : String) (calls : Nat)
    (entry : TopicMetadataCacheEntry) (e : GoError)
    (h1 : cache topic = some entry) (h2 : entry.timestamp + ttl < now)
    (h3 : conn [topic] = .error e) :
    tmcGetTail conn ttl now cache topic calls =
      { cache := cache, result := .error e, refreshCalls := calls + 1 } := by
  simp [tmcGetTail, h1, h2, tmcRefresh_error conn now cache [topic] e h3]

theorem tmcGetTail_stale_ok (conn : Connector) (ttl now : Nat)
    (cache : Cache) (topic : String) (calls : Nat)
    (entry : TopicMetadataCacheEntry) (resp : TopicMetadataResponse)
    (h1 : cache topic = some entry) (h2 : entry.timestamp + ttl < now)
    (h3 : conn [topic] = .ok resp) :
    tmcGetTail conn ttl now cache topic calls =
      { cache := (tmcRefresh conn now cache [topic]).cache,
        result := .ok (match lastPartitions resp topic with
                       | some ps => ps
                       | none => entry.partitions),
        refreshCalls := calls + 1 } := by
  have hc2 := tmcRefresh_ok_lookup conn now cache [topic] resp topic h3
  simp only [tmcGetTail, h1, h2, if_true,
    tmcRefresh_ok_err conn now cache [topic] resp h3]
  cases hl : lastPartitions resp topic with
  | some ps =>
      rw [hl] at hc2
      simp [hc2, newTopicMetadataCacheEntry]
  | none =>
      rw [hl] at hc2
      rw [h1] at hc2
      simp [hc2]

theorem tmcGet_eq_tail (conn : Connector) (ttl now : Nat) (cache : Cache)
    (topic : String) (entry : TopicMetadataCacheEntry)
    (h : cache topic = some entry) :
    tmcGet conn ttl now cache topic =
      tmcGetTail conn ttl now cache topic 0 := by
  simp [tmcGet, h]

theorem tmcGet_miss_error (conn : Connector) (ttl now : Nat) (cache : Cache)
    (topic : String) (e : GoError)
    (h0 : cache topic = none) (h : conn [topic] = .error e) :
    tmcGet conn ttl now cache topic =
      { cache := cache, result := .error e, refreshCalls := 1 } := by
  simp [tmcGet, h0, tmcRefresh_error conn now cache [topic] e h]

theorem tmcGet_miss_ok (conn : Connector) (ttl now : Nat) (cache : Cache)
    (topic : String) (resp : TopicMetadataResponse)
    (h0 : cache topic = none) (h : conn [topic] = .ok resp) :
    tmcGet conn ttl now cache topic =
      { cache := (tmcRefresh conn now cache [topic]).cache,
        result := match lastPartitions resp topic with
                  | some ps => .ok ps
                  | none => .error (unknownTopicError topic),
        refreshCalls := 1 } := by
  have hc2 := tmcRefresh_ok_lookup conn now cache [topic] resp topic h
  simp only [tmcGet, h0, tmcRefresh_ok_err conn now cache [topic] resp h]
  cases hl : lastPartitions resp topic with
  | some ps =>
      rw [hl] at hc2
      rw [tmcGetTail_fresh conn ttl now _ topic 1 _ hc2
        (Nat.not_lt.mpr (Nat.le_add_right now ttl))]
      rfl
  | none =>
      rw [hl] at hc2
      rw [h0] at hc2
      rw [tmcGetTail_noEntry conn ttl now _ topic 1 hc2]

/-- C2 (counterexample): with topic `orders` cached at timestamp 0,
TTL 5 and `now = 5`, the entry's age equals the TTL exactly, yet `Get`
performs no refresh (the claim demands one: it requires age `≥` TTL to
refresh, the code refreshes only on age `>` TTL); and with a stale entry
and a failing connector, `Get` returns an error although an entry still
exists after the refresh attempt (the claim says an error is returned
exactly when no entry exists then). -/
theorem tmcGet_age_eq_ttl_counterexample :
    cacheOrders "orders" = some { partitions := [0, 1, 2], timestamp := 0 } ∧
    (tmcGet connOrders 5 5 cacheOrders "orders").refreshCalls = 0 ∧
    (tmcGet connFail 1 5 cacheOrders "orders").result =
      .error { msg := "fetch failed" } ∧
    (tmcGet connFail 1 5 cacheOrders "orders").cache "orders" =
      some { partitions := [0, 1, 2], timestamp := 0 } := by
  refine ⟨rfl, ?_, ?_, ?_⟩
  · rw [tmcGet_eq_tail connOrders 5 5 cacheOrders "orders"
      { partitions := [0, 1, 2], timestamp := 0 } rfl,
      tmcGetTail_fresh connOrders 5 5 cacheOrders "orders" 0
      { partitions := [0, 1, 2], timestamp := 0 } rfl (by decide)]
  · rw [tmcGet_eq_tail connFail 1 5 cacheOrders "orders"
      { partitions := [0, 1, 2], timestamp := 0 } rfl,
      tmcGetTail_stale_error connFail 1 5 cacheOrders "orders" 0
      { partitions := [0, 1, 2], timestamp := 0 }
      { msg := "fetch failed" } rfl (by decide) rfl]
  · rw [tmcGet_eq_tail connFail 1 5 cacheOrders "orders"
      { partitions := [0, 1, 2], timestamp := 0 } rfl,
      tmcGetTail_stale_error connFail 1 5 cacheOrders "orders" 0
      { partitions := [0, 1, 2], timestamp := 0 }
      { msg := "fetch failed" } rfl (by decide) rfl]
    rfl

/-- C2 (amended): `Get(topic)` performs a synchronous `Refresh([topic])`
when no entry exists; performs one when the cached entry's age is
strictly greater than the TTL (age exactly equal to the TTL does NOT
refresh); otherwise performs none and returns the cached partition
list; and it returns an error exactly when either a triggered refresh's
connector fetch fails, or no entry exists for the topic after the
attempt. -/
theorem tmcGet_refresh_policy (conn : Connector) (ttl now : Nat)
    (cache : Cache) (topic : String) :
    (cache topic = none →
       (tmcGet conn ttl now cache topic).refreshCalls = 1) ∧
    (∀ entry, cache topic = some entry → entry.timestamp + ttl < now →
       (tmcGet conn ttl now cache topic).refreshCalls = 1) ∧
    (∀ entry, cache topic = some entry → ¬ entry.timestamp + ttl < now →
       (tmcGet conn ttl now cache topic).refreshCalls = 0 ∧
       (tmcGet conn ttl now cache topic).result = .ok entry.partitions) ∧
    ((∃ e, (tmcGet conn ttl now cache topic).result = .error e) ↔
       ((∃ e, conn [topic] = .error e) ∧
          (cache topic = none ∨
           ∃ entry, cache topic = some entry ∧
             entry.timestamp + ttl < now)) ∨
       (tmcGet conn ttl now cache topic).cache topic = none) := by
  refine ⟨?_, ?_, ?_, ?_⟩
  · intro h0
    cases hc : conn [topic] with
    | error e => rw [tmcGet_miss_error conn ttl now cache topic e h0 hc]
    | ok resp => rw [tmcGet_miss_ok conn ttl now cache topic resp h0 hc]
  · intro entry h1 h2
    rw [tmcGet_eq_tail conn ttl now cache topic entry h1]
    exact tmcGetTail_stale_calls conn ttl now cache topic 0 entry h1 h2
  · intro entry h1 h2
    rw [tmcGet_eq_tail conn ttl now cache topic entry h1,
      tmcGetTail_fresh conn ttl now cache topic 0 entry h1 h2]
    exact ⟨rfl, rfl⟩
  · have main : ∀ (g : GetResult), tmcGet conn ttl now cache topic = g →
        ((∃ e, g.result = .error e) ↔
          ((∃ e, conn [topic] = .error e) ∧
            (cache topic = none ∨
             ∃ entry, cache topic = some entry ∧
               entry.timestamp + ttl < now)) ∨
          g.cache topic = none) := by
      intro g hg
      have hconn : (∃ e, conn [topic] = .error e) ∨
          (∃ resp, conn [topic] = .ok resp) := by
        cases conn [topic] with
        | error e => exact .inl ⟨e, rfl⟩
        | ok resp => exact .inr ⟨resp, rfl⟩
      rcases Option.eq_none_or_eq_some (cache topic) with h0 | ⟨entry, h0⟩
      · rcases hconn with ⟨e, hc⟩ | ⟨resp, hc⟩
        · rw [tmcGet_miss_error conn ttl now cache topic e h0 hc] at hg
          subst hg
          exact ⟨fun _ => .inl ⟨⟨e, hc⟩, .inl h0⟩, fun _ => ⟨e, rfl⟩⟩
        · rw [tmcGet_miss_ok conn ttl now cache topic resp h0 hc] at hg
          subst hg
          have hc2 :=
            tmcRefresh_ok_lookup conn now cache [topic] resp topic hc
          rcases Option.eq_none_or_eq_some (lastPartitions resp topic)
            with hl | ⟨ps, hl⟩
          · have key : (tmcRefresh conn now cache [topic]).cache topic
                = none := by
              rw [hc2, hl, h0]
            constructor
            · intro _
              exact .inr key
            · intro _
              refine ⟨unknownTopicError topic, ?_⟩
              show (match lastPartitions resp topic with
                | some ps => Except.ok ps
                | none => Except.error (unknownTopicError topic)) = _
              rw [hl]
          · have key : (tmcRefresh conn now cache [topic]).cache topic
                = some (newTopicMetadataCacheEntry ps now) := by
              rw [hc2, hl]
            constructor
            · rintro ⟨e, he⟩
              rw [show (match lastPartitions resp topic with
                  | some ps => Except.ok ps
                  | none => Except.error (unknownTopicError topic))
                  = Except.ok ps by rw [hl]] at he
              exact absurd he (by simp)
            · rintro (⟨⟨e, he⟩, _⟩ | hnone)
              · rw [hc] at he
                exact absurd he (by simp)
              · have hnone2 : (tmcRefresh conn now cache [topic]).cache topic
                    = none := hnone
                rw [key] at hnone2
                exact absurd hnone2 (by simp)
      · by_cases hst : entry.timestamp + ttl < now
        · rcases hconn with ⟨e, hc⟩ | ⟨resp, hc⟩
          · rw [tmcGet_eq_tail conn ttl now cache topic entry h0,
              tmcGetTail_stale_error conn ttl now cache topic 0 entry e
                h0 hst hc] at hg
            subst hg
            exact ⟨fun _ => .inl ⟨⟨e, hc⟩, .inr ⟨entry, h0, hst⟩⟩,
              fun _ => ⟨e, rfl⟩⟩
          · rw [tmcGet_eq_tail conn ttl now cache topic entry h0,
              tmcGetTail_stale_ok conn ttl now cache topic 0 entry resp
                h0 hst hc] at hg
            subst hg
            have hc2 :=
              tmcRefresh_ok_lookup conn now cache [topic] resp topic hc
            constructor
            · rintro ⟨e, he⟩
              exact absurd he (by simp)
            · rintro (⟨⟨e, he⟩, _⟩ | hnone)
              · rw [hc] at he
                exact absurd he (by simp)
              · rcases Option.eq_none_or_eq_some (lastPartitions resp topic)
                  with hl | ⟨ps, hl⟩
                · have key : (tmcRefresh conn now cache [topic]).cache topic
                      = some entry := by
                    rw [hc2, hl, h0]
                  have hnone2 :
                      (tmcRefresh conn now cache [topic]).cache topic
                        = none := hnone
                  rw [key] at hnone2
                  exact absurd hnone2 (by simp)
                · have key : (tmcRefresh conn now cache [topic]).cache topic
                      = some (newTopicMetadataCacheEntry ps now) := by
                    rw [hc2, hl]
                  have hnone2 :
                      (tmcRefresh conn now cache [topic]).cache topic
                        = none := hnone
                  rw [key] at hnone2
                  exact absurd hnone2 (by simp)
        · rw [tmcGet_eq_tail conn ttl now cache topic entry h0,
            tmcGetTail_fresh conn ttl now cache topic 0 entry h0 hst] at hg
          subst hg
          constructor
          · rintro ⟨e, he⟩
            exact absurd he (by simp)
          · rintro (⟨_, (hnone | ⟨entry2, he2, hst2⟩)⟩ | hnone)
            · rw [h0] at hnone
              exact absurd hnone (by simp)
            · rw [h0, Option.some_inj] at he2
              rw [← he2] at hst2
              exact absurd hst2 hst
            · have hnone2 : cache topic = none := hnone
              rw [h0] at hnone2
              exact absurd hnone2 (by simp)
    exact main (tmcGet conn ttl now cache topic) rfl

/-- C2 (witness for the amended theorem, the spec's own example): topic
`orders` fetched at time 0 with TTL 5: `Get` at time 3 makes no fetch
and returns the cached partitions, `Get` at time 6 makes exactly one,
and a `Get` on an empty cache makes exactly one. -/
theorem tmcGet_refresh_policy_witness :
    (tmcGet connOrders 5 3 cacheOrders "orders").refreshCalls = 0 ∧
    (tmcGet connOrders 5 3 cacheOrders "orders").result = .ok [0, 1, 2] ∧
    (tmcGet connOrders 5 6 cacheOrders "orders").refreshCalls = 1 ∧
    (tmcGet connOrders 5 9 emptyCache "orders").refreshCalls = 1 := by
  have h1 := (tmcGet_refresh_policy connOrders 5 3 cacheOrders "orders").2.2.1
    { partitions := [0, 1, 2], timestamp := 0 } rfl (by decide)
  have h2 := (tmcGet_refresh_policy connOrders 5 6 cacheOrders "orders").2.1
    { partitions := [0, 1, 2], timestamp := 0 } rfl (by decide)
  have h3 := (tmcGet_refresh_policy connOrders 5 9 emptyCache "orders").1 rfl
  exact ⟨h1.1, h1.2, h2, h3⟩

/-- C3: an existing entry whose staleness check fires, together with a
failing connector fetch in the triggered refresh, makes `Get` return
that connector error — not the still-cached stale partition list. -/
theorem tmcGet_staleRefreshFailure_errors (conn : Connector)
    (ttl now : Nat) (cache : Cache) (topic : String)
    (entry : TopicMetadataCacheEntry) (e : GoError)
    (h1 : cache topic = some entry)
    (h2 : entry.timestamp + ttl < now)
    (h3 : conn [topic] = .error e) :
    (tmcGet conn ttl now cache topic).result = .error e ∧
    ∀ ps, (tmcGet conn ttl now cache topic).result ≠ .ok ps := by
  rw [tmcGet_eq_tail conn ttl now cache topic entry h1,
    tmcGetTail_stale_error conn ttl now cache topic 0 entry e h1 h2 h3]
  exact ⟨rfl, fun ps h => by simp at h⟩

/-- C3 (witness): topic `orders` cached at timestamp 0 with TTL 1 at
time 5 is stale; with the always-failing connector, `Get` returns the
fetch error. -/
theorem tmcGet_staleRefreshFailure_errors_witness :
    cacheOrders "orders" = some { partitions := [0, 1, 2], timestamp := 0 } ∧
    connFail ["orders"] = .error { msg := "fetch failed" } ∧
    (tmcGet connFail 1 5 cacheOrders "orders").result =
      .error { msg := "fetch failed" } := by
  refine ⟨rfl, rfl, ?_⟩
  exact (tmcGet_staleRefreshFailure_errors connFail 1 5 cacheOrders "orders"
    { partitions := [0, 1, 2], timestamp := 0 } { msg := "fetch failed" }
    rfl (by decide) rfl).1

/-- C4: when the connector's `GetTopicMetadata` fails, `Refresh` returns
that very error and the topic-to-entry map is the unchanged original
(no entry added, removed or replaced). -/
theorem tmcRefresh_failure_cacheUnchanged (conn : Connector) (now : Nat)
    (cache : Cache) (topics : List String) (e : GoError)
    (h : conn topics = .error e) :
    tmcRefresh conn now cache topics = { cache := cache, err := some e } :=
  tmcRefresh_error conn now cache topics e h

/-- C4 (witness): the always-failing connector leaves the seeded map
untouched and surfaces its error. -/
theorem tmcRefresh_failure_cacheUnchanged_witness :
    connFail ["orders"] = .error { msg := "fetch failed" } ∧
    tmcRefresh connFail 3 cacheOrders ["orders"] =
      { cache := cacheOrders, err := some { msg := "fetch failed" } } :=
  ⟨rfl, tmcRefresh_failure_cacheUnchanged connFail 3 cacheOrders ["orders"]
    { msg := "fetch failed" } rfl⟩

/-- A connector that always reports topic `t` with partitions `0, 1, 2`
(the refreshed list of the spec's replacement example). -/
def connT : Connector := fun _ => .ok [("t", [0, 1, 2])]

/-- C5: after a successful `Refresh`, a topic the response mentions maps
to a brand-new entry holding exactly the response's partition IDs (the
entry the write loop leaves, i.e. the response's last occurrence of the
topic) and the fresh timestamp — whatever was cached before; a `Get`
while that entry is still fresh returns exactly the new list, with no
further fetch. -/
theorem tmcRefresh_success_replacesWholesale (conn : Connector)
    (ttl now now2 : Nat) (cache : Cache) (topics : List String)
    (resp : TopicMetadataResponse) (t : String) (ps : List Int)
    (h1 : conn topics = .ok resp)
    (h2 : lastPartitions resp t = some ps)
    (h3 : ¬ now + ttl < now2) :
    (tmcRefresh conn now cache topics).cache t =
      some { partitions := ps, timestamp := now } ∧
    (tmcGet conn ttl now2 (tmcRefresh conn now cache topics).cache t).result
      = .ok ps ∧
    (tmcGet conn ttl now2
      (tmcRefresh conn now cache topics).cache t).refreshCalls = 0 := by
  have hc : (tmcRefresh conn now cache topics).cache t =
      some { partitions := ps, timestamp := now } := by
    rw [tmcRefresh_ok_lookup conn now cache topics resp t h1, h2]
    rfl
  have hg := tmcGet_eq_tail conn ttl now2
    (tmcRefresh conn now cache topics).cache t
    { partitions := ps, timestamp := now } hc
  have ht := tmcGetTail_fresh conn ttl now2
    (tmcRefresh conn now cache topics).cache t 0
    { partitions := ps, timestamp := now } hc h3
  rw [hg, ht]
  exact ⟨hc, rfl, rfl⟩

/-- C5 (witness, the spec's example): topic `t` seeded with partitions
0 and 1; a refresh whose response carries partitions 0, 1, 2 makes a
fresh `Get` return exactly that new list with no merge and no fetch. -/
theorem tmcRefresh_success_replacesWholesale_witness :
    cacheSeed "t" = some { partitions := [0, 1], timestamp := 0 } ∧
    connT ["t"] = .ok [("t", [0, 1, 2])] ∧
    (tmcRefresh connT 10 cacheSeed ["t"]).cache "t" =
      some { partitions := [0, 1, 2], timestamp := 10 } ∧
    (tmcGet connT 5 12 (tmcRefresh connT 10 cacheSeed ["t"]).cache "t").result
      = .ok [0, 1, 2] := by
  have h := tmcRefresh_success_replacesWholesale connT 5 10 12 cacheSeed
    ["t"] [("t", [0, 1, 2])] "t" [0, 1, 2] rfl rfl (by decide)
  exact ⟨rfl, rfl, h.1, h.2.1⟩

/-- C10: a stale entry whose triggered refresh succeeds but whose
response omits the topic: `Get` returns the old stale partition list
with no error, the entry (its old timestamp included) is untouched, and
any later `Get` at the same or a later time triggers a refresh again. -/
theorem tmcGet_staleRefreshOmitsTopic (conn : Connector)
    (ttl now now2 : Nat) (cache : Cache) (topic : String)
    (entry : TopicMetadataCacheEntry) (resp : TopicMetadataResponse)
    (h1 : cache topic = some entry)
    (h2 : entry.timestamp + ttl < now)
    (h3 : conn [topic] = .ok resp)
    (h4 : ∀ tm ∈ resp, tm.1 ≠ topic)
    (h5 : now ≤ now2) :
    (tmcGet conn ttl now cache topic).result = .ok entry.partitions ∧
    (tmcGet conn ttl now cache topic).cache topic = some entry ∧
    (tmcGet conn ttl now2
      (tmcGet conn ttl now cache topic).cache topic).refreshCalls = 1 := by
  have hl := lastPartitions_eq_none resp topic h4
  have hc2 : (tmcRefresh conn now cache [topic]).cache topic = some entry := by
    rw [tmcRefresh_ok_lookup conn now cache [topic] resp topic h3, hl, h1]
  have hg : tmcGet conn ttl now cache topic =
      { cache := (tmcRefresh conn now cache [topic]).cache,
        result := .ok entry.partitions, refreshCalls := 0 + 1 } := by
    rw [tmcGet_eq_tail conn ttl now cache topic entry h1,
      tmcGetTail_stale_ok conn ttl now cache topic 0 entry resp h1 h2 h3,
      hl]
  rw [hg]
  refine ⟨rfl, hc2, ?_⟩
  show (tmcGet conn ttl now2
    (tmcRefresh conn now cache [topic]).cache topic).refreshCalls = 1
  have hg2 := tmcGet_eq_tail conn ttl now2
    (tmcRefresh conn now cache [topic]).cache topic entry hc2
  have hst2 : entry.timestamp + ttl < now2 := Nat.lt_of_lt_of_le h2 h5
  have ht2 := tmcGetTail_stale_calls conn ttl now2
    (tmcRefresh conn now cache [topic]).cache topic 0 entry hc2 hst2
  exact (congrArg GetResult.refreshCalls hg2).trans ht2

/-- C10 (witness): topic `orders` cached at timestamp 0, TTL 1, time 5;
the connector's successful response mentions only topic `other`, so
`Get` serves the stale list `0, 1, 2` without error, keeps the old
entry, and a `Get` at time 6 refreshes again. -/
theorem tmcGet_staleRefreshOmitsTopic_witness :
    cacheOrders "orders" = some { partitions := [0, 1, 2], timestamp := 0 } ∧
    connOther ["orders"] = .ok [("other", [7])] ∧
    (tmcGet connOther 1 5 cacheOrders "orders").result = .ok [0, 1, 2] ∧
    (tmcGet connOther 1 5 cacheOrders "orders").cache "orders" =
      some { partitions := [0, 1, 2], timestamp := 0 } ∧
    (tmcGet connOther 1 6
      (tmcGet connOther 1 5 cacheOrders "orders").cache
      "orders").refreshCalls = 1 := by
  have h := tmcGet_staleRefreshOmitsTopic connOther 1 5 6 cacheOrders
    "orders" { partitions := [0, 1, 2], timestamp := 0 } [("other", [7])]
    rfl (by decide) rfl (by decide) (by decide)
  exact ⟨rfl, rfl, h.1, h.2.1, h.2.2⟩

/-- A record whose key is absent (Go nil). -/
def recNilKey : ProducerRecord :=
  { topic := "t", key := .nil, value := .bytes [1] }

/-- A record that passes every local step against `cacheOrders`. -/
def recBytes : ProducerRecord :=
  { topic := "orders", key := .bytes [1], value := .bytes [2] }

/-- C1: `Send` returns a channel of capacity 1; whichever local step is
the first to fail (key serialization, value serialization, the
metadata-cache lookup, or partition selection), the pipeline writes
exactly one `RecordMetadata` carrying that step's error and enqueues
nothing; and when every local step succeeds, the pipeline writes
nothing and enqueues the fully-resolved record exactly once onto the
accumulator's ingress channel. -/
theorem kpSend_exactlyOneOutcome (keySer valSer : Serializer)
    (part : Partitioner) (conn : Connector) (ttl now : Nat) (cache : Cache)
    (record : ProducerRecord) :
    (kpSendPublic keySer valSer part conn ttl now cache record).1.capacity
      = 1 ∧
    (∀ e, keySer record.key = .error e →
       (kpSendPublic keySer valSer part conn ttl now cache
          record).2.chanWrites = [{ error := some e }] ∧
       (kpSendPublic keySer valSer part conn ttl now cache
          record).2.enqueued = []) ∧
    (∀ sk e, keySer record.key = .ok sk →
       valSer record.value = .error e →
       (kpSendPublic keySer valSer part conn ttl now cache
          record).2.chanWrites = [{ error := some e }] ∧
       (kpSendPublic keySer valSer part conn ttl now cache
          record).2.enqueued = []) ∧
    (∀ sk sv e, keySer record.key = .ok sk →
       valSer record.value = .ok sv →
       (tmcGet conn ttl now cache record.topic).result = .error e →
       (kpSendPublic keySer valSer part conn ttl now cache
          record).2.chanWrites = [{ error := some e }] ∧
       (kpSendPublic keySer valSer part conn ttl now cache
          record).2.enqueued = []) ∧
    (∀ sk sv parts e, keySer record.key = .ok sk →
       valSer record.value = .ok sv →
       (tmcGet conn ttl now cache record.topic).result = .ok parts →
       part { record with encodedKey := sk, encodedValue := sv } parts
         = .error e →
       (kpSendPublic keySer valSer part conn ttl now cache
          record).2.chanWrites = [{ error := some e }] ∧
       (kpSendPublic keySer valSer part conn ttl now cache
          record).2.enqueued = []) ∧
    (∀ sk sv parts p, keySer record.key = .ok sk →
       valSer record.value = .ok sv →
       (tmcGet conn ttl now cache record.topic).result = .ok parts →
       part { record with encodedKey := sk, encodedValue := sv } parts
         = .ok p →
       (kpSendPublic keySer valSer part conn ttl now cache
          record).2.chanWrites = [] ∧
       (kpSendPublic keySer valSer part conn ttl now cache
          record).2.enqueued =
         [{ record with
             encodedKey := sk, encodedValue := sv, partition := p }]) := by
  refine ⟨rfl, ?_, ?_, ?_, ?_, ?_⟩
  · intro e hk
    refine ⟨?_, ?_⟩ <;> simp [kpSendPublic, kpSend, hk]
  · intro sk e hk hv
    refine ⟨?_, ?_⟩ <;> simp [kpSendPublic, kpSend, hk, hv]
  · intro sk sv e hk hv hg
    refine ⟨?_, ?_⟩ <;> simp [kpSendPublic, kpSend, hk, hv, hg]
  · intro sk sv parts e hk hv hg hp
    refine ⟨?_, ?_⟩ <;> simp [kpSendPublic, kpSend, hk, hv, hg, hp]
  · intro sk sv parts p hk hv hg hp
    refine ⟨?_, ?_⟩ <;> simp [kpSendPublic, kpSend, hk, hv, hg, hp]

/-- C1 (witness): a key-serialization failure (nil key under
`StringSerializer`) yields exactly the one error write and no enqueue,
and an all-steps-succeed send (byte key and value, fresh cached
metadata, head partitioner) writes nothing and enqueues the resolved
record exactly once, on a capacity-1 channel. -/
theorem kpSend_exactlyOneOutcome_witness :
    (kpSendPublic StringSerializer ByteSerializer partHead connFail 5 0
      emptyCache recNilKey).1.capacity = 1 ∧
    ((kpSendPublic StringSerializer ByteSerializer partHead connFail 5 0
        emptyCache recNilKey).2.chanWrites =
      [{ error := some { msg := "cannot serialize value to string" } }] ∧
     (kpSendPublic StringSerializer ByteSerializer partHead connFail 5 0
        emptyCache recNilKey).2.enqueued = []) ∧
    ((kpSendPublic ByteSerializer ByteSerializer partHead connFail 5 3
        cacheOrders recBytes).2.chanWrites = [] ∧
     (kpSendPublic ByteSerializer ByteSerializer partHead connFail 5 3
        cacheOrders recBytes).2.enqueued =
       [{ recBytes with
           encodedKey := some [1], encodedValue := some [2],
           partition := 0 }]) := by
  refine ⟨?_, ?_, ?_⟩
  · exact (kpSend_exactlyOneOutcome StringSerializer ByteSerializer partHead
      connFail 5 0 emptyCache recNilKey).1
  · exact (kpSend_exactlyOneOutcome StringSerializer ByteSerializer partHead
      connFail 5 0 emptyCache recNilKey).2.1
      { msg := "cannot serialize value to string" } (by rfl)
  · exact (kpSend_exactlyOneOutcome ByteSerializer ByteSerializer partHead
      connFail 5 3 cacheOrders recBytes).2.2.2.2.2
      (some [1]) (some [2]) [0, 1, 2] 0 (by rfl) (by rfl) (by rfl) (by rfl)

/-- C6: a key-serialization failure short-circuits `send`: the single
error `RecordMetadata` is written immediately, the collaborator trace
shows the key serializer alone (no value serializer, no metadata-cache
`Get`, no partitioner), nothing is enqueued, and the cache is
untouched. -/
theorem kpSend_keyFailure_shortCircuits (keySer valSer : Serializer)
    (part : Partitioner) (conn : Connector) (ttl now : Nat) (cache : Cache)
    (record : ProducerRecord) (e : GoError)
    (h : keySer record.key = .error e) :
    kpSend keySer valSer part conn ttl now cache record =
      { chanWrites := [{ error := some e }], enqueued := [], cache := cache,
        trace := [.keySer] } := by
  unfold kpSend
  rw [h]

/-- C6 (witness): sending a nil-keyed record through a producer whose
key serializer is `StringSerializer` fails at the key step with only the
key serializer having run. -/
theorem kpSend_keyFailure_shortCircuits_witness :
    StringSerializer recNilKey.key =
      .error { msg := "cannot serialize value to string" } ∧
    kpSend StringSerializer ByteSerializer partHead connFail 5 0 emptyCache
      recNilKey =
      { chanWrites :=
          [{ error := some { msg := "cannot serialize value to string" } }],
        enqueued := [], cache := emptyCache, trace := [.keySer] } :=
  ⟨rfl, kpSend_keyFailure_shortCircuits StringSerializer ByteSerializer
    partHead connFail 5 0 emptyCache recNilKey
    { msg := "cannot serialize value to string" } rfl⟩

/-- C9: `StringSerializer` fails on nil (it succeeds only on a value of
runtime type string), `ByteSerializer` maps nil to `(nil, nil)` with no
error, and a record with a nil key sent through a producer whose key
serializer is `StringSerializer` fails the key-serialization step
immediately. -/
theorem stringSerializer_nil_fails (valSer : Serializer)
    (part : Partitioner) (conn : Connector) (ttl now : Nat) (cache : Cache)
    (record : ProducerRecord) (h : record.key = .nil) :
    (∃ e, StringSerializer .nil = .error e) ∧
    (∀ v, (∀ s, v ≠ .str s) → ∃ e, StringSerializer v = .error e) ∧
    ByteSerializer .nil = .ok none ∧
    ∃ e, kpSend StringSerializer valSer part conn ttl now cache record =
      { chanWrites := [{ error := some e }], enqueued := [], cache := cache,
        trace := [.keySer] } := by
  refine ⟨⟨_, rfl⟩, ?_, rfl, ?_⟩
  · intro v hv
    cases v with
    | nil => exact ⟨_, rfl⟩
    | str s => exact absurd rfl (hv s)
    | bytes b => exact ⟨_, rfl⟩
    | other t => exact ⟨_, rfl⟩
  · refine ⟨{ msg := "cannot serialize value to string" }, ?_⟩
    have hk : StringSerializer record.key =
        .error { msg := "cannot serialize value to string" } := by
      rw [h]
      rfl
    unfold kpSend
    rw [hk]

/-- C9 (witness): the nil-keyed record through `StringSerializer` as key
serializer, with everything else concrete. -/
theorem stringSerializer_nil_fails_witness :
    (∃ e, StringSerializer .nil = .error e) ∧
    (∀ v, (∀ s, v ≠ .str s) → ∃ e, StringSerializer v = .error e) ∧
    ByteSerializer .nil = .ok none ∧
    ∃ e, kpSend StringSerializer ByteSerializer partHead connFail 5 0
      emptyCache recNilKey =
      { chanWrites := [{ error := some e }], enqueued := [],
        cache := emptyCache, trace := [.keySer] } :=
  stringSerializer_nil_fails ByteSerializer partHead connFail 5 0 emptyCache
    recNilKey rfl

/-- C7 (evaluating the code at the failing input): `Close` only requests
accumulator shutdown; `send` consults no shutdown state, so a `Send`
issued after `Close` has begun, whose local steps all succeed, still
hands its record to the accumulator's ingress channel — no rejection, no
error result.  The claim requires such a `Send` to be rejected or to
fail. -/
theorem kpClose_send_still_enqueues :
    (kpClose { cache := cacheOrders, accumulatorQueue := [],
               accumulatorClosed := false } 100).accumulatorClosed = true ∧
    (kpSendState ByteSerializer ByteSerializer partHead connFail 5 3
      (kpClose { cache := cacheOrders, accumulatorQueue := [],
                 accumulatorClosed := false } 100) recBytes).2 = [] ∧
    (kpSendState ByteSerializer ByteSerializer partHead connFail 5 3
      (kpClose { cache := cacheOrders, accumulatorQueue := [],
                 accumulatorClosed := false } 100)
      recBytes).1.accumulatorQueue =
      [{ topic := "orders", key := .bytes [1], value := .bytes [2],
         partition := 0, encodedKey := some [1],
         encodedValue := some [2] }] :=
  ⟨rfl, rfl, rfl⟩

/-!  C8: invariant proofs for the interleaving model of concurrent
`Refresh` calls. -/

theorem refreshInv_init (n : Nat) : RefreshInv (refreshInit n) := by
  intro i h
  exact absurd h (by simp [refreshInit])

theorem refreshInv_step {n : Nat} {s s2 : RefreshSystem n}
    (h : RefreshStep s s2) (hi : RefreshInv s) : RefreshInv s2 := by
  cases h with
  | acquire i hpc hlock =>
      intro j hj
      by_cases hij : j = i
      · subst hij
        rfl
      · have hsj : s.pcs j = .fetching := by
          simpa [Function.update_noteq hij] using hj
        have h2 := hi j hsj
        rw [hlock] at h2
        exact absurd h2 (by simp)
  | release i hpc hlock =>
      intro j hj
      by_cases hij : j = i
      · subst hij
        simp [Function.update_same] at hj
      · have hsj : s.pcs j = .fetching := by
          simpa [Function.update_noteq hij] using hj
        have h2 := hi j hsj
        rw [hlock] at h2
        rw [Option.some_inj] at h2
        exact absurd h2.symm hij

theorem refreshInv_reachable {n : Nat} (s : RefreshSystem n)
    (h : RefreshReachable s) : RefreshInv s := by
  unfold RefreshReachable at h
  induction h with
  | refl => exact refreshInv_init n
  | tail hsteps hstep ih => exact refreshInv_step hstep ih

/-- C8: in every reachable interleaving of concurrent `Refresh` calls,
at most one thread has its connector fetch outstanding — they all
serialize on the one process-wide `refreshLock`, whatever their topics
(the model has a single lock by construction, mirroring the single
`refreshLock` field of the struct); and a `Get` for a topic with no
cache entry never returns before making a fetch attempt (at least one
`Refresh`, hence one connector call, on the caller's behalf). -/
theorem refreshLock_serializesFetches (n : Nat) (s : RefreshSystem n)
    (h : RefreshReachable s) :
    (∀ i j : Fin n, s.pcs i = .fetching → s.pcs j = .fetching → i = j) ∧
    (∀ (conn : Connector) (ttl now : Nat) (cache : Cache) (topic : String),
       cache topic = none →
       1 ≤ (tmcGet conn ttl now cache topic).refreshCalls) := by
  constructor
  · intro i j hi hj
    have hinv := refreshInv_reachable s h
    have h1 := hinv i hi
    have h2 := hinv j hj
    rw [h1] at h2
    exact Option.some_inj.mp h2
  · intro conn ttl now cache topic h0
    cases hc : conn [topic] with
    | error e =>
        rw [tmcGet_miss_error conn ttl now cache topic e h0 hc]
    | ok resp =>
        rw [tmcGet_miss_ok conn ttl now cache topic resp h0 hc]

/-- The two-thread state in which thread 0 has acquired the lock and has
its fetch outstanding. -/
def refreshAcquired : RefreshSystem 2 :=
  { lockHolder := some 0,
    pcs := Function.update (refreshInit 2).pcs 0 .fetching }

/-- C8 (witness): the state reached by thread 0 acquiring the lock is
reachable, mutual exclusion holds there, and a concrete miss `Get`
makes a fetch attempt. -/
theorem refreshLock_serializesFetches_witness :
    (0 : Fin 2) = 0 ∧
    1 ≤ (tmcGet connFail 0 0 emptyCache "t").refreshCalls := by
  have hreach : RefreshReachable refreshAcquired :=
    Relation.ReflTransGen.single
      (RefreshStep.acquire (refreshInit 2) 0 rfl rfl)
  have h := refreshLock_serializesFetches 2 refreshAcquired hreach
  have hp : refreshAcquired.pcs 0 = .fetching := by
    simp [refreshAcquired, Function.update_same]
  exact ⟨h.1 0 0 hp hp, h.2 connFail 0 0 emptyCache "t" rfl⟩

end Siesta
